import Mathlib

/-!
Shallow embedding of `src/pkg/reconciler/instances/ory/k8s/ory_crds.go`.

The Go code is a deterministic client of an external Kubernetes API server.
We model the server (and the other external calls: kubeconfig parsing and
client construction) as an `Env` of responses, following the Go signatures:
a call returning `(*T, error)` is modelled as a response pair
`Option T × Option GoErr` (both components may independently be present,
exactly as Go pointers and errors may).  The embedded functions compute the
result of the corresponding Go function together with the ordered list of
API requests it issues.
-/

namespace OryK8s

/-- Go `error` values, with the two predicates the source consults
(`apierr.IsNotFound`, `apierr.IsConflict`) and `errors.Wrapf` wrapping. -/
inductive GoErr where
  | notFound : GoErr
  | conflict : GoErr
  | other : String → GoErr
  | wrapped : String → GoErr → GoErr
deriving DecidableEq, Repr

/-- `apierr.IsNotFound`. -/
def isNotFound : GoErr → Bool
  | GoErr.notFound => true
  | _ => false

/-- `apierr.IsConflict` (the retriable predicate of `RetryOnConflict`). -/
def isConflict : GoErr → Bool
  | GoErr.conflict => true
  | _ => false

inductive WarningHandlerKind where
  | standard : WarningHandlerKind
  | noWarnings : WarningHandlerKind
deriving DecidableEq, Repr

/-- `rest.Config`: opaque contents plus the warning handler field that
`restConfig` overwrites with `rest.NoWarnings`. -/
structure Config where
  contents : String
  warningHandler : WarningHandlerKind
deriving DecidableEq, Repr

structure CRDNames where
  plural : String
deriving DecidableEq, Repr

/-- The fields of `apiextensions v1beta1 CustomResourceDefinitionSpec` the
source reads: `Group`, `Version`, `Names.Plural`. -/
structure CRDSpec where
  group : String
  version : String
  names : CRDNames
deriving DecidableEq, Repr

structure CRD where
  spec : CRDSpec
deriving DecidableEq, Repr

structure GroupVersionResource where
  group : String
  version : String
  resource : String
deriving DecidableEq, Repr

/-- An `unstructured.Unstructured` custom resource instance, restricted to
the accessors the source uses: namespace, name, kind, finalizers. -/
structure Unstructured where
  ns : String
  name : String
  kind : String
  finalizers : List String
deriving DecidableEq, Repr

/-- `res.SetFinalizers(nil)`: the object with its finalizer list cleared. -/
def clearFinalizers (u : Unstructured) : Unstructured :=
  ⟨u.ns, u.name, u.kind, []⟩

/-- One API request sent to the cluster, with the coordinates the client
call supplies.  `update` carries the object payload sent. -/
inductive Request where
  | getCRD : String → Request
  | list : GroupVersionResource → String → Request
  | get : GroupVersionResource → String → String → Request
  | update : GroupVersionResource → String → Unstructured → Request
deriving DecidableEq, Repr

structure Logger where
  id : Nat
deriving DecidableEq, Repr

structure ApixClient where
  cfg : Config
deriving DecidableEq, Repr

structure DynClient where
  cfg : Config
deriving DecidableEq, Repr

/-- The fields of `DefaultOryFinalizersHandler`. -/
structure Handler where
  apixClient : Option ApixClient
  dynamic : Option DynClient
  logger : Option Logger
deriving DecidableEq, Repr

/-- The responses of every external call the procedure can make.
`instGet i k` / `instUpdate i k` are the responses to the fresh get and the
update for the `i`-th listed instance during its `k`-th retry attempt. -/
structure Env where
  parse : String → Except GoErr Config
  apixNewErr : Option GoErr
  dynNewErr : Option GoErr
  getCRDResp : Option CRD × Option GoErr
  listResp : Option (List Unstructured) × Option GoErr
  instGet : Nat → Nat → Option Unstructured × Option GoErr
  instUpdate : Nat → Nat → Option Unstructured × Option GoErr

/-- `v1.NamespaceAll`. -/
def NamespaceAll : String := ""

/-- The CRD name hard-coded at the `Get` call. -/
def oryCRDName : String := "oauth2clients.hydra.ory.sh"

/-- `k8sRetry.DefaultRetry.Steps`. -/
def defaultRetrySteps : Nat := 5

/-- The `restConfig` helper: parse the kubeconfig via `clientcmd`, then set
`cfg.WarningHandler = rest.NoWarnings`. -/
def restConfig (env : Env) (kubeconfigData : String) : Except GoErr Config :=
  match env.parse kubeconfigData with
  | Except.error e => Except.error e
  | Except.ok cfg => Except.ok ⟨cfg.contents, WarningHandlerKind.noWarnings⟩

/-- The guard `err != nil && !apierr.IsNotFound(err)` used after the CRD
get, the list, and the per-instance fresh get. -/
def stopsErr : Option GoErr → Bool
  | none => false
  | some e => ! isNotFound e

/-- `removeCustomResourceFinalizers` (one retry attempt `k` for the `i`-th
listed instance): fresh get, tolerate a not-found error, skip a nil result,
and when the fetched object has finalizers, clear them and update. -/
def removeCustomResourceFinalizers (env : Env) (crdef : GroupVersionResource)
    (i k : Nat) (inst : Unstructured) : Option GoErr × List Request :=
  if stopsErr (env.instGet i k).2 then
    ((env.instGet i k).2, [Request.get crdef inst.ns inst.name])
  else
    match (env.instGet i k).1 with
    | none => (none, [Request.get crdef inst.ns inst.name])
    | some res =>
      if 0 < res.finalizers.length then
        match (env.instUpdate i k).2 with
        | some e =>
          (some e, [Request.get crdef inst.ns inst.name,
            Request.update crdef res.ns (clearFinalizers res)])
        | none =>
          (none, [Request.get crdef inst.ns inst.name,
            Request.update crdef res.ns (clearFinalizers res)])
      else (none, [Request.get crdef inst.ns inst.name])

/-- The loop of `k8sRetry.RetryOnConflict` (`wait.ExponentialBackoff` with
`DefaultRetry.Steps` attempts composed with `OnError`): run the attempt;
stop on success or on a non-conflict error; on a conflict remember it and
retry; once the attempts are exhausted return the last conflict. -/
def retryGo (env : Env) (crdef : GroupVersionResource) (i : Nat) (inst : Unstructured) :
    Nat → Nat → Option GoErr → List Request → Option GoErr × List Request
  | 0, _, lastErr, acc => (lastErr, acc)
  | steps + 1, k, _, acc =>
    match removeCustomResourceFinalizers env crdef i k inst with
    | (none, reqs) => (none, acc ++ reqs)
    | (some e, reqs) =>
      if isConflict e then
        retryGo env crdef i inst steps (k + 1) (some e) (acc ++ reqs)
      else (some e, acc ++ reqs)

/-- `k8sRetry.RetryOnConflict(k8sRetry.DefaultRetry, ...)` around one
instance's `removeCustomResourceFinalizers`. -/
def retryOnConflict (env : Env) (crdef : GroupVersionResource) (i : Nat)
    (inst : Unstructured) : Option GoErr × List Request :=
  retryGo env crdef i inst defaultRetrySteps 0 none []

/-- The message of the `errors.Wrapf` at a failed instance. -/
def wrapMsg (crdef : GroupVersionResource) (inst : Unstructured) : String :=
  "deleting ory finalizer for " ++ crdef.resource ++ "." ++ crdef.group ++ "/" ++
    crdef.version ++ " \"" ++ inst.name ++ "\" failed"

/-- The `for i := range customResourceList.Items` loop: retry each instance
in order; at the first failing instance wrap the error with the instance's
name and stop. -/
def forEachInstance (env : Env) (crdef : GroupVersionResource) :
    List Unstructured → Nat → Option GoErr × List Request
  | [], _ => (none, [])
  | inst :: rest, start =>
    match retryOnConflict env crdef start inst with
    | (none, reqs) =>
      ((forEachInstance env crdef rest (start + 1)).1,
        reqs ++ (forEachInstance env crdef rest (start + 1)).2)
    | (some e, reqs) => (some (GoErr.wrapped (wrapMsg crdef inst) e), reqs)

/-- `removeFinalizersFromAllInstancesOf`: one list across all namespaces,
tolerating a not-found error and a nil list, then the per-instance loop. -/
def removeFinalizersFromAllInstancesOf (env : Env) (crdef : GroupVersionResource) :
    Option GoErr × List Request :=
  if stopsErr env.listResp.2 then
    (env.listResp.2, [Request.list crdef NamespaceAll])
  else
    match env.listResp.1 with
    | none => (none, [Request.list crdef NamespaceAll])
    | some items =>
      ((forEachInstance env crdef items 0).1,
        Request.list crdef NamespaceAll :: (forEachInstance env crdef items 0).2)

/-- The `schema.GroupVersionResource` built from the fetched CRD's spec. -/
def crdefOf (crd : CRD) : GroupVersionResource :=
  ⟨crd.spec.group, crd.spec.version, crd.spec.names.plural⟩

/-- Result of one call of `FindAndDeleteOryFinalizers`: the returned error,
the ordered requests sent to the cluster, and the handler's final state. -/
structure RunResult where
  err : Option GoErr
  trace : List Request
  handler : Handler
deriving DecidableEq, Repr

/-- `FindAndDeleteOryFinalizers`: assign the logger, parse the kubeconfig,
construct both clients (assigning the handler fields exactly when Go does,
a nil client on a failed construction), get the CRD tolerating not-found,
stop on a nil CRD, and remove finalizers from all instances. -/
def FindAndDeleteOryFinalizers (h : Handler) (env : Env) (kubeconfigData : String)
    (logger : Logger) : RunResult :=
  match restConfig env kubeconfigData with
  | Except.error e => ⟨some e, [], ⟨h.apixClient, h.dynamic, some logger⟩⟩
  | Except.ok config =>
    match env.apixNewErr with
    | some e => ⟨some e, [], ⟨none, h.dynamic, some logger⟩⟩
    | none =>
      match env.dynNewErr with
      | some e => ⟨some e, [], ⟨some ⟨config⟩, none, some logger⟩⟩
      | none =>
        if stopsErr env.getCRDResp.2 then
          ⟨env.getCRDResp.2, [Request.getCRD oryCRDName],
            ⟨some ⟨config⟩, some ⟨config⟩, some logger⟩⟩
        else
          match env.getCRDResp.1 with
          | none =>
            ⟨none, [Request.getCRD oryCRDName],
              ⟨some ⟨config⟩, some ⟨config⟩, some logger⟩⟩
          | some crd =>
            ⟨(removeFinalizersFromAllInstancesOf env (crdefOf crd)).1,
              Request.getCRD oryCRDName ::
                (removeFinalizersFromAllInstancesOf env (crdefOf crd)).2,
              ⟨some ⟨config⟩, some ⟨config⟩, some logger⟩⟩

/-- Request classifiers used by the trace statements. -/
def isListReq : Request → Bool
  | Request.list _ _ => true
  | _ => false

def isUpdateReq : Request → Bool
  | Request.update _ _ _ => true
  | _ => false

/-- A fresh-get response whose object (when present) has no finalizers. -/
def finalizersEmptyResp : Option Unstructured × Option GoErr → Bool
  | (none, _) => true
  | (some res, _) => res.finalizers.isEmpty

/-- A fresh-get response whose object (when present) carries the namespace
and name that were requested, i.e. the server answered the question asked. -/
def getConsistentWith (resp : Option Unstructured × Option GoErr) (inst : Unstructured) : Bool :=
  match resp.1 with
  | none => true
  | some res => decide (res.ns = inst.ns) && decide (res.name = inst.name)

/-- Default instance used to index into the listed items. -/
def dInst : Unstructured := ⟨"", "", "", []⟩

/-- The addressing discipline of one request issued while processing the
given instance: a get or update under the CRD-spec coordinates, addressed to
that instance's own namespace and name (for an update, both the request's
namespace and the payload's namespace and name). -/
def perInstanceAddressed (crdef : GroupVersionResource) (inst : Unstructured) :
    Request → Bool
  | Request.get g ns n =>
    decide (g = crdef) && decide (ns = inst.ns) && decide (n = inst.name)
  | Request.update g ns o =>
    decide (g = crdef) && decide (ns = inst.ns) &&
      decide (o.ns = inst.ns) && decide (o.name = inst.name)
  | _ => false

/-- The attempt result is a conflict error. -/
def attemptConflicts (env : Env) (crdef : GroupVersionResource) (i : Nat)
    (inst : Unstructured) (k : Nat) : Bool :=
  match (removeCustomResourceFinalizers env crdef i k inst).1 with
  | some e => isConflict e
  | none => false

/-! Concrete objects used to evaluate the theorems on closed inputs. -/

def h0 : Handler := ⟨none, none, none⟩

def lg0 : Logger := ⟨0⟩

def cfg0 : Config := ⟨"kubecfg", WarningHandlerKind.standard⟩

def crd1 : CRD := ⟨⟨"hydra.ory.sh", "v1alpha1", ⟨"oauth2clients"⟩⟩⟩

def gvr1 : GroupVersionResource := crdefOf crd1

def inst1 : Unstructured := ⟨"default", "client-a", "OAuth2Client", ["finalizer.ory.sh"]⟩

def inst2 : Unstructured := ⟨"kyma", "client-b", "OAuth2Client", []⟩

/-- A healthy cluster: two instances, the first with a finalizer; every
fresh get answers with the instance that was asked for; updates succeed. -/
def envOK : Env :=
  ⟨fun _ => Except.ok cfg0, none, none, (some crd1, none),
    (some [inst1, inst2], none),
    fun i _ => if i = 0 then (some inst1, none) else (some inst2, none),
    fun _ _ => (some (clearFinalizers inst1), none)⟩

/-- The kubeconfig does not parse. -/
def envParseBad : Env :=
  ⟨fun _ => Except.error (GoErr.other "bad kubeconfig"), none, none,
    (none, none), (none, none), fun _ _ => (none, none), fun _ _ => (none, none)⟩

/-- The apiextensions client cannot be constructed. -/
def envApixBad : Env :=
  ⟨fun _ => Except.ok cfg0, some (GoErr.other "apix"), none,
    (none, none), (none, none), fun _ _ => (none, none), fun _ _ => (none, none)⟩

/-- The dynamic client cannot be constructed. -/
def envDynBad : Env :=
  ⟨fun _ => Except.ok cfg0, none, some (GoErr.other "dyn"),
    (none, none), (none, none), fun _ _ => (none, none), fun _ _ => (none, none)⟩

/-- The CRD get fails with an error other than not-found. -/
def envGetBad : Env :=
  ⟨fun _ => Except.ok cfg0, none, none, (none, some (GoErr.other "boom")),
    (some [inst1], none), fun _ _ => (none, none), fun _ _ => (none, none)⟩

/-- The list fails with an error other than not-found. -/
def envListBad : Env :=
  ⟨fun _ => Except.ok cfg0, none, none, (some crd1, none),
    (none, some (GoErr.other "list-broke")),
    fun _ _ => (none, none), fun _ _ => (none, none)⟩

/-- The CRD get reports not-found and carries no CRD object. -/
def envCRDGone : Env :=
  ⟨fun _ => Except.ok cfg0, none, none, (none, some GoErr.notFound),
    (some [inst1], none), fun _ _ => (some inst1, none), fun _ _ => (none, none)⟩

/-- The CRD get reports not-found but, as the typed client actually does,
still carries a (zero-valued here: arbitrary) CRD object. -/
def envCRDNotFoundObj : Env :=
  ⟨fun _ => Except.ok cfg0, none, none, (some crd1, some GoErr.notFound),
    (some [], none), fun _ _ => (none, none), fun _ _ => (none, none)⟩

/-- Every fresh instance get reports not-found with no object. -/
def envInstGone : Env :=
  ⟨fun _ => Except.ok cfg0, none, none, (some crd1, none),
    (some [inst1, inst2], none),
    fun _ _ => (none, some GoErr.notFound), fun _ _ => (none, none)⟩

/-- The fresh instance get reports not-found but still carries an object
with finalizers, and the update then fails. -/
def envInstNotFoundObj : Env :=
  ⟨fun _ => Except.ok cfg0, none, none, (some crd1, none),
    (some [inst1], none),
    fun _ _ => (some inst1, some GoErr.notFound),
    fun _ _ => (none, some (GoErr.other "boom"))⟩

/-- Every per-instance attempt fails with a version conflict. -/
def envConflict : Env :=
  ⟨fun _ => Except.ok cfg0, none, none, (some crd1, none),
    (some [inst1], none),
    fun _ _ => (none, some GoErr.conflict), fun _ _ => (none, none)⟩

/-- The first per-instance attempt fails with a non-conflict error. -/
def envNonConflict : Env :=
  ⟨fun _ => Except.ok cfg0, none, none, (some crd1, none),
    (some [inst1, inst2], none),
    fun _ _ => (none, some (GoErr.other "x")), fun _ _ => (none, none)⟩

/-- Every fresh instance get returns an object without finalizers. -/
def envNoFins : Env :=
  ⟨fun _ => Except.ok cfg0, none, none, (some crd1, none),
    (some [inst2], none),
    fun _ _ => (some inst2, none), fun _ _ => (none, none)⟩

/-! Equation lemmas for the branches of the embedded functions. -/

theorem attempt_eq_stop (env : Env) (crdef : GroupVersionResource) (i k : Nat)
    (inst : Unstructured) (res? : Option Unstructured) (e : GoErr)
    (hik : env.instGet i k = (res?, some e)) (he : isNotFound e = false) :
    removeCustomResourceFinalizers env crdef i k inst =
      (some e, [Request.get crdef inst.ns inst.name]) := by
  unfold removeCustomResourceFinalizers
  rw [hik]
  simp [stopsErr, he]

theorem attempt_eq_gone (env : Env) (crdef : GroupVersionResource) (i k : Nat)
    (inst : Unstructured) (err? : Option GoErr)
    (hik : env.instGet i k = (none, err?)) (hs : stopsErr err? = false) :
    removeCustomResourceFinalizers env crdef i k inst =
      (none, [Request.get crdef inst.ns inst.name]) := by
  unfold removeCustomResourceFinalizers
  rw [hik]
  simp [hs]

theorem attempt_eq_nofins (env : Env) (crdef : GroupVersionResource) (i k : Nat)
    (inst : Unstructured) (res : Unstructured) (err? : Option GoErr)
    (hik : env.instGet i k = (some res, err?)) (hs : stopsErr err? = false)
    (hf : res.finalizers = []) :
    removeCustomResourceFinalizers env crdef i k inst =
      (none, [Request.get crdef inst.ns inst.name]) := by
  unfold removeCustomResourceFinalizers
  rw [hik]
  simp [hs, hf]

theorem attempt_eq_update (env : Env) (crdef : GroupVersionResource) (i k : Nat)
    (inst : Unstructured) (res : Unstructured) (err? : Option GoErr)
    (hik : env.instGet i k = (some res, err?)) (hs : stopsErr err? = false)
    (hf : res.finalizers ≠ []) :
    removeCustomResourceFinalizers env crdef i k inst =
      ((env.instUpdate i k).2,
        [Request.get crdef inst.ns inst.name,
          Request.update crdef res.ns (clearFinalizers res)]) := by
  unfold removeCustomResourceFinalizers
  rw [hik]
  have hl : 0 < res.finalizers.length := List.length_pos.mpr hf
  cases hu : (env.instUpdate i k).2 <;> simp [hs, hl, hu]

theorem retryGo_zero (env : Env) (crdef : GroupVersionResource) (i : Nat)
    (inst : Unstructured) (k : Nat) (le : Option GoErr) (acc : List Request) :
    retryGo env crdef i inst 0 k le acc = (le, acc) := rfl

theorem retryGo_succ_ok (env : Env) (crdef : GroupVersionResource) (i : Nat)
    (inst : Unstructured) (steps k : Nat) (le : Option GoErr) (acc reqs : List Request)
    (ha : removeCustomResourceFinalizers env crdef i k inst = (none, reqs)) :
    retryGo env crdef i inst (steps + 1) k le acc = (none, acc ++ reqs) := by
  conv_lhs => unfold retryGo
  rw [ha]

theorem retryGo_succ_conflict (env : Env) (crdef : GroupVersionResource) (i : Nat)
    (inst : Unstructured) (steps k : Nat) (le : Option GoErr) (acc reqs : List Request)
    (e : GoErr) (ha : removeCustomResourceFinalizers env crdef i k inst = (some e, reqs))
    (hc : isConflict e = true) :
    retryGo env crdef i inst (steps + 1) k le acc =
      retryGo env crdef i inst steps (k + 1) (some e) (acc ++ reqs) := by
  conv_lhs => unfold retryGo
  rw [ha]
  simp [hc]

theorem retryGo_succ_stop (env : Env) (crdef : GroupVersionResource) (i : Nat)
    (inst : Unstructured) (steps k : Nat) (le : Option GoErr) (acc reqs : List Request)
    (e : GoErr) (ha : removeCustomResourceFinalizers env crdef i k inst = (some e, reqs))
    (hc : isConflict e = false) :
    retryGo env crdef i inst (steps + 1) k le acc = (some e, acc ++ reqs) := by
  conv_lhs => unfold retryGo
  rw [ha]
  simp [hc]

theorem forEach_nil (env : Env) (crdef : GroupVersionResource) (start : Nat) :
    forEachInstance env crdef [] start = (none, []) := rfl

theorem forEach_cons_ok (env : Env) (crdef : GroupVersionResource)
    (inst : Unstructured) (rest : List Unstructured) (start : Nat) (reqs : List Request)
    (hr : retryOnConflict env crdef start inst = (none, reqs)) :
    forEachInstance env crdef (inst :: rest) start =
      ((forEachInstance env crdef rest (start + 1)).1,
        reqs ++ (forEachInstance env crdef rest (start + 1)).2) := by
  conv_lhs => unfold forEachInstance
  rw [hr]

theorem forEach_cons_fail (env : Env) (crdef : GroupVersionResource)
    (inst : Unstructured) (rest : List Unstructured) (start : Nat) (e : GoErr)
    (reqs : List Request)
    (hr : retryOnConflict env crdef start inst = (some e, reqs)) :
    forEachInstance env crdef (inst :: rest) start =
      (some (GoErr.wrapped (wrapMsg crdef inst) e), reqs) := by
  conv_lhs => unfold forEachInstance
  rw [hr]

/-! Trace lemmas about the embedded procedure. -/

theorem attempt_mem (env : Env) (crdef : GroupVersionResource) (i k : Nat)
    (inst : Unstructured) (r : Request)
    (hr : r ∈ (removeCustomResourceFinalizers env crdef i k inst).2) :
    r = Request.get crdef inst.ns inst.name ∨
      ∃ res e2, env.instGet i k = (some res, e2) ∧ res.finalizers ≠ [] ∧
        r = Request.update crdef res.ns (clearFinalizers res) := by
  rcases hik : env.instGet i k with ⟨res?, err?⟩
  by_cases hs : stopsErr err? = true
  · obtain ⟨e, rfl⟩ : ∃ e, err? = some e := by
      cases err? with
      | none => exact absurd hs (by simp [stopsErr])
      | some e => exact ⟨e, rfl⟩
    have he : isNotFound e = false := by simpa [stopsErr] using hs
    rw [attempt_eq_stop env crdef i k inst res? e hik he] at hr
    simp only [List.mem_singleton] at hr
    exact Or.inl hr
  · have hs2 : stopsErr err? = false := by simpa using hs
    cases res? with
    | none =>
      rw [attempt_eq_gone env crdef i k inst err? hik hs2] at hr
      simp only [List.mem_singleton] at hr
      exact Or.inl hr
    | some res =>
      by_cases hf : res.finalizers = []
      · rw [attempt_eq_nofins env crdef i k inst res err? hik hs2 hf] at hr
        simp only [List.mem_singleton] at hr
        exact Or.inl hr
      · rw [attempt_eq_update env crdef i k inst res err? hik hs2 hf] at hr
        simp only [List.mem_cons, List.not_mem_nil, or_false] at hr
        rcases hr with h1 | h2
        · exact Or.inl h1
        · exact Or.inr ⟨res, err?, rfl, hf, h2⟩

theorem attempt_update_mem (env : Env) (crdef : GroupVersionResource) (i k : Nat)
    (inst : Unstructured) (res : Unstructured)
    (hres : env.instGet i k = (some res, none)) (hfin : res.finalizers ≠ []) :
    Request.update crdef res.ns (clearFinalizers res) ∈
      (removeCustomResourceFinalizers env crdef i k inst).2 := by
  rw [attempt_eq_update env crdef i k inst res none hres rfl hfin]
  simp

theorem retryGo_acc_sub (env : Env) (crdef : GroupVersionResource) (i : Nat)
    (inst : Unstructured) :
    ∀ (steps k : Nat) (le : Option GoErr) (acc : List Request) (r : Request),
      r ∈ acc → r ∈ (retryGo env crdef i inst steps k le acc).2 := by
  intro steps
  induction steps with
  | zero =>
    intro k le acc r hr
    simpa [retryGo_zero] using hr
  | succ n ih =>
    intro k le acc r hr
    rcases ha : removeCustomResourceFinalizers env crdef i k inst with ⟨o, reqs⟩
    cases o with
    | none =>
      rw [retryGo_succ_ok env crdef i inst n k le acc reqs ha]
      exact List.mem_append_left _ hr
    | some e =>
      by_cases hc : isConflict e = true
      · rw [retryGo_succ_conflict env crdef i inst n k le acc reqs e ha hc]
        exact ih (k + 1) (some e) (acc ++ reqs) r (List.mem_append_left _ hr)
      · rw [retryGo_succ_stop env crdef i inst n k le acc reqs e ha (by simpa using hc)]
        exact List.mem_append_left _ hr

theorem retryGo_mem (env : Env) (crdef : GroupVersionResource) (i : Nat)
    (inst : Unstructured) :
    ∀ (steps k : Nat) (le : Option GoErr) (acc : List Request) (r : Request),
      r ∈ (retryGo env crdef i inst steps k le acc).2 →
      r ∈ acc ∨ ∃ k2, k2 < k + steps ∧
        r ∈ (removeCustomResourceFinalizers env crdef i k2 inst).2 := by
  intro steps
  induction steps with
  | zero =>
    intro k le acc r hr
    exact Or.inl (by simpa [retryGo_zero] using hr)
  | succ n ih =>
    intro k le acc r hr
    rcases ha : removeCustomResourceFinalizers env crdef i k inst with ⟨o, reqs⟩
    cases o with
    | none =>
      rw [retryGo_succ_ok env crdef i inst n k le acc reqs ha] at hr
      rcases List.mem_append.mp hr with h1 | h2
      · exact Or.inl h1
      · exact Or.inr ⟨k, by omega, by rw [ha]; exact h2⟩
    | some e =>
      by_cases hc : isConflict e = true
      · rw [retryGo_succ_conflict env crdef i inst n k le acc reqs e ha hc] at hr
        rcases ih (k + 1) (some e) (acc ++ reqs) r hr with h1 | ⟨k2, hk2, hmem⟩
        · rcases List.mem_append.mp h1 with h2 | h3
          · exact Or.inl h2
          · exact Or.inr ⟨k, by omega, by rw [ha]; exact h3⟩
        · exact Or.inr ⟨k2, by omega, hmem⟩
      · rw [retryGo_succ_stop env crdef i inst n k le acc reqs e ha (by simpa using hc)] at hr
        rcases List.mem_append.mp hr with h1 | h2
        · exact Or.inl h1
        · exact Or.inr ⟨k, by omega, by rw [ha]; exact h2⟩

theorem retry_mem (env : Env) (crdef : GroupVersionResource) (i : Nat)
    (inst : Unstructured) (r : Request)
    (hr : r ∈ (retryOnConflict env crdef i inst).2) :
    ∃ k2, k2 < defaultRetrySteps ∧
      r ∈ (removeCustomResourceFinalizers env crdef i k2 inst).2 := by
  rcases retryGo_mem env crdef i inst defaultRetrySteps 0 none [] r hr with h1 | ⟨k2, hk2, hmem⟩
  · exact absurd h1 (List.not_mem_nil r)
  · exact ⟨k2, by omega, hmem⟩

theorem forEach_mem (env : Env) (crdef : GroupVersionResource) :
    ∀ (items : List Unstructured) (start : Nat) (r : Request),
      r ∈ (forEachInstance env crdef items start).2 →
      ∃ j, j < items.length ∧ ∃ k2, k2 < defaultRetrySteps ∧
        r ∈ (removeCustomResourceFinalizers env crdef (start + j) k2
              (items.getD j dInst)).2 := by
  intro items
  induction items with
  | nil =>
    intro start r hr
    rw [forEach_nil] at hr
    exact absurd hr (List.not_mem_nil r)
  | cons inst rest ih =>
    intro start r hr
    rcases hretry : retryOnConflict env crdef start inst with ⟨o, reqs⟩
    cases o with
    | none =>
      rw [forEach_cons_ok env crdef inst rest start reqs hretry] at hr
      rcases List.mem_append.mp hr with h1 | h2
      · have hmem : r ∈ (retryOnConflict env crdef start inst).2 := by
          rw [hretry]; exact h1
        rcases retry_mem env crdef start inst r hmem with ⟨k2, hk2, hmem2⟩
        exact ⟨0, by simp, k2, hk2, hmem2⟩
      · rcases ih (start + 1) r h2 with ⟨j, hj, k2, hk2, hmem2⟩
        refine ⟨j + 1, by simpa using Nat.succ_lt_succ hj, k2, hk2, ?_⟩
        rw [show start + (j + 1) = start + 1 + j from by omega]
        exact hmem2
    | some e =>
      rw [forEach_cons_fail env crdef inst rest start e reqs hretry] at hr
      have hmem : r ∈ (retryOnConflict env crdef start inst).2 := by
        rw [hretry]; exact hr
      rcases retry_mem env crdef start inst r hmem with ⟨k2, hk2, hmem2⟩
      exact ⟨0, by simp, k2, hk2, hmem2⟩

theorem forEach_mem_retry (env : Env) (crdef : GroupVersionResource) :
    ∀ (items : List Unstructured) (start : Nat) (r : Request),
      r ∈ (forEachInstance env crdef items start).2 →
      ∃ j, j < items.length ∧
        r ∈ (retryOnConflict env crdef (start + j) (items.getD j dInst)).2 := by
  intro items
  induction items with
  | nil =>
    intro start r hr
    rw [forEach_nil] at hr
    exact absurd hr (List.not_mem_nil r)
  | cons inst rest ih =>
    intro start r hr
    rcases hretry : retryOnConflict env crdef start inst with ⟨o, reqs⟩
    cases o with
    | none =>
      rw [forEach_cons_ok env crdef inst rest start reqs hretry] at hr
      rcases List.mem_append.mp hr with h1 | h2
      · refine ⟨0, by simp, ?_⟩
        show r ∈ (retryOnConflict env crdef start inst).2
        rw [hretry]
        exact h1
      · rcases ih (start + 1) r h2 with ⟨j, hj, hmem⟩
        refine ⟨j + 1, by simpa using Nat.succ_lt_succ hj, ?_⟩
        rw [show start + (j + 1) = start + 1 + j from by omega]
        exact hmem
    | some e =>
      rw [forEach_cons_fail env crdef inst rest start e reqs hretry] at hr
      refine ⟨0, by simp, ?_⟩
      show r ∈ (retryOnConflict env crdef start inst).2
      rw [hretry]
      exact hr

theorem forEach_success (env : Env) (crdef : GroupVersionResource) :
    ∀ (items : List Unstructured) (start : Nat),
      (forEachInstance env crdef items start).1 = none →
      ∀ j, j < items.length →
        (retryOnConflict env crdef (start + j) (items.getD j dInst)).1 = none ∧
        ∀ r, r ∈ (retryOnConflict env crdef (start + j) (items.getD j dInst)).2 →
          r ∈ (forEachInstance env crdef items start).2 := by
  intro items
  induction items with
  | nil =>
    intro start _ j hj
    exact absurd hj (by simp)
  | cons inst rest ih =>
    intro start hnone j hj
    rcases hretry : retryOnConflict env crdef start inst with ⟨o, reqs⟩
    cases o with
    | some e =>
      rw [forEach_cons_fail env crdef inst rest start e reqs hretry] at hnone
      exact absurd hnone (by simp)
    | none =>
      have hcons := forEach_cons_ok env crdef inst rest start reqs hretry
      rw [hcons] at hnone
      simp only at hnone
      cases j with
      | zero =>
        constructor
        · show (retryOnConflict env crdef start inst).1 = none
          rw [hretry]
        · intro r hrmem
          rw [hcons]
          have hrmem2 : r ∈ (retryOnConflict env crdef start inst).2 := hrmem
          rw [hretry] at hrmem2
          exact List.mem_append_left _ hrmem2
      | succ j2 =>
        have hj2 : j2 < rest.length := by simpa using hj
        have harg : start + (j2 + 1) = start + 1 + j2 := by omega
        rcases ih (start + 1) hnone j2 hj2 with ⟨hret, hsub⟩
        constructor
        · rw [show ((inst :: rest).getD (j2 + 1) dInst) = rest.getD j2 dInst from rfl,
            harg]
          exact hret
        · intro r hrmem
          rw [hcons]
          refine List.mem_append_right _ (hsub r ?_)
          rw [← harg]
          exact hrmem

theorem attemptConflicts_spec (env : Env) (crdef : GroupVersionResource) (i : Nat)
    (inst : Unstructured) (k : Nat) (h : attemptConflicts env crdef i inst k = true) :
    ∃ e reqs, removeCustomResourceFinalizers env crdef i k inst = (some e, reqs) ∧
      isConflict e = true := by
  unfold attemptConflicts at h
  rcases ha : removeCustomResourceFinalizers env crdef i k inst with ⟨o, reqs⟩
  rw [ha] at h
  cases o with
  | none => simp at h
  | some e => exact ⟨e, reqs, rfl, by simpa using h⟩

/-- The configuration as `restConfig` returns it. -/
def noWarnCfg (cfg : Config) : Config := ⟨cfg.contents, WarningHandlerKind.noWarnings⟩

/-- The handler state after both clients were assigned. -/
def readyHandler (cfg : Config) (lg : Logger) : Handler :=
  ⟨some ⟨noWarnCfg cfg⟩, some ⟨noWarnCfg cfg⟩, some lg⟩

theorem run_parse_fail (h : Handler) (env : Env) (kc : String) (lg : Logger) (e : GoErr)
    (hp : env.parse kc = Except.error e) :
    FindAndDeleteOryFinalizers h env kc lg =
      ⟨some e, [], ⟨h.apixClient, h.dynamic, some lg⟩⟩ := by
  simp [FindAndDeleteOryFinalizers, restConfig, hp]

theorem run_apix_fail (h : Handler) (env : Env) (kc : String) (lg : Logger)
    (cfg : Config) (e : GoErr)
    (hp : env.parse kc = Except.ok cfg) (ha : env.apixNewErr = some e) :
    FindAndDeleteOryFinalizers h env kc lg =
      ⟨some e, [], ⟨none, h.dynamic, some lg⟩⟩ := by
  simp [FindAndDeleteOryFinalizers, restConfig, hp, ha]

theorem run_dyn_fail (h : Handler) (env : Env) (kc : String) (lg : Logger)
    (cfg : Config) (e : GoErr)
    (hp : env.parse kc = Except.ok cfg) (ha : env.apixNewErr = none)
    (hd : env.dynNewErr = some e) :
    FindAndDeleteOryFinalizers h env kc lg =
      ⟨some e, [], ⟨some ⟨noWarnCfg cfg⟩, none, some lg⟩⟩ := by
  simp [FindAndDeleteOryFinalizers, restConfig, noWarnCfg, hp, ha, hd]

theorem run_get_stop (h : Handler) (env : Env) (kc : String) (lg : Logger)
    (cfg : Config) (crd? : Option CRD) (e : GoErr)
    (hp : env.parse kc = Except.ok cfg) (ha : env.apixNewErr = none)
    (hd : env.dynNewErr = none) (hg : env.getCRDResp = (crd?, some e))
    (he : isNotFound e = false) :
    FindAndDeleteOryFinalizers h env kc lg =
      ⟨some e, [Request.getCRD oryCRDName], readyHandler cfg lg⟩ := by
  simp [FindAndDeleteOryFinalizers, restConfig, readyHandler, noWarnCfg,
    hp, ha, hd, hg, stopsErr, he]

theorem run_crd_nil (h : Handler) (env : Env) (kc : String) (lg : Logger)
    (cfg : Config) (ge : Option GoErr)
    (hp : env.parse kc = Except.ok cfg) (ha : env.apixNewErr = none)
    (hd : env.dynNewErr = none) (hg : env.getCRDResp = (none, ge))
    (hge : stopsErr ge = false) :
    FindAndDeleteOryFinalizers h env kc lg =
      ⟨none, [Request.getCRD oryCRDName], readyHandler cfg lg⟩ := by
  simp [FindAndDeleteOryFinalizers, restConfig, readyHandler, noWarnCfg,
    hp, ha, hd, hg, hge]

theorem run_ok (h : Handler) (env : Env) (kc : String) (lg : Logger)
    (cfg : Config) (crd : CRD) (ge : Option GoErr)
    (hp : env.parse kc = Except.ok cfg) (ha : env.apixNewErr = none)
    (hd : env.dynNewErr = none) (hg : env.getCRDResp = (some crd, ge))
    (hge : stopsErr ge = false) :
    FindAndDeleteOryFinalizers h env kc lg =
      ⟨(removeFinalizersFromAllInstancesOf env (crdefOf crd)).1,
        Request.getCRD oryCRDName ::
          (removeFinalizersFromAllInstancesOf env (crdefOf crd)).2,
        readyHandler cfg lg⟩ := by
  simp [FindAndDeleteOryFinalizers, restConfig, readyHandler, noWarnCfg,
    hp, ha, hd, hg, hge]

theorem remove_list_stop (env : Env) (crdef : GroupVersionResource)
    (items? : Option (List Unstructured)) (e : GoErr)
    (hl : env.listResp = (items?, some e)) (he : isNotFound e = false) :
    removeFinalizersFromAllInstancesOf env crdef =
      (some e, [Request.list crdef NamespaceAll]) := by
  simp [removeFinalizersFromAllInstancesOf, hl, stopsErr, he]

theorem remove_list_nil (env : Env) (crdef : GroupVersionResource) (le : Option GoErr)
    (hl : env.listResp = (none, le)) (hle : stopsErr le = false) :
    removeFinalizersFromAllInstancesOf env crdef =
      (none, [Request.list crdef NamespaceAll]) := by
  simp [removeFinalizersFromAllInstancesOf, hl, hle]

theorem remove_list_ok (env : Env) (crdef : GroupVersionResource)
    (items : List Unstructured) (le : Option GoErr)
    (hl : env.listResp = (some items, le)) (hle : stopsErr le = false) :
    removeFinalizersFromAllInstancesOf env crdef =
      ((forEachInstance env crdef items 0).1,
        Request.list crdef NamespaceAll :: (forEachInstance env crdef items 0).2) := by
  simp [removeFinalizersFromAllInstancesOf, hl, hle]

theorem attempt0_sub_retry (env : Env) (crdef : GroupVersionResource) (i : Nat)
    (inst : Unstructured) (r : Request)
    (hr : r ∈ (removeCustomResourceFinalizers env crdef i 0 inst).2) :
    r ∈ (retryOnConflict env crdef i inst).2 := by
  show r ∈ (retryGo env crdef i inst (4 + 1) 0 none []).2
  rcases ha : removeCustomResourceFinalizers env crdef i 0 inst with ⟨o, reqs⟩
  rw [ha] at hr
  cases o with
  | none =>
    rw [retryGo_succ_ok env crdef i inst 4 0 none [] reqs ha]
    simpa using hr
  | some e =>
    by_cases hc : isConflict e = true
    · rw [retryGo_succ_conflict env crdef i inst 4 0 none [] reqs e ha hc]
      exact retryGo_acc_sub env crdef i inst 4 1 (some e) ([] ++ reqs) r (by simpa using hr)
    · rw [retryGo_succ_stop env crdef i inst 4 0 none [] reqs e ha (by simpa using hc)]
      simpa using hr

theorem getD_mem_of_lt {α : Type} (l : List α) (j : Nat) (d : α)
    (hj : j < l.length) : l.getD j d ∈ l := by
  rw [List.getD_eq_getElem?_getD, List.getElem?_eq_getElem hj, Option.getD_some]
  exact List.getElem_mem hj

/-! Claim theorems. -/

/-- C9: if parsing the kubeconfig into a client configuration fails,
`FindAndDeleteOryFinalizers` returns that error, sends no request to the
cluster, and leaves both client fields of the handler untouched, so no API
client is constructed. -/
theorem c9_parse_failure_stops_early (h : Handler) (env : Env) (kc : String)
    (lg : Logger) (e : GoErr) (hp : env.parse kc = Except.error e) :
    (FindAndDeleteOryFinalizers h env kc lg).err = some e ∧
    (FindAndDeleteOryFinalizers h env kc lg).trace = [] ∧
    (FindAndDeleteOryFinalizers h env kc lg).handler.apixClient = h.apixClient ∧
    (FindAndDeleteOryFinalizers h env kc lg).handler.dynamic = h.dynamic := by
  rw [run_parse_fail h env kc lg e hp]
  exact ⟨rfl, rfl, rfl, rfl⟩

theorem c9_witness :
    (FindAndDeleteOryFinalizers h0 envParseBad "kubecfg" lg0).err =
        some (GoErr.other "bad kubeconfig") ∧
    (FindAndDeleteOryFinalizers h0 envParseBad "kubecfg" lg0).trace = [] ∧
    (FindAndDeleteOryFinalizers h0 envParseBad "kubecfg" lg0).handler.apixClient =
        h0.apixClient ∧
    (FindAndDeleteOryFinalizers h0 envParseBad "kubecfg" lg0).handler.dynamic =
        h0.dynamic :=
  c9_parse_failure_stops_early h0 envParseBad "kubecfg" lg0
    (GoErr.other "bad kubeconfig") rfl

/-- C8: two calls with the same kubeconfig and the same API responses return
the same error and issue the same request sequence, whatever handler state a
previous call left behind: the run's result and trace do not depend on the
incoming handler fields. -/
theorem c8_run_independent_of_handler_state (h1 h2 : Handler) (env : Env)
    (kc : String) (lg : Logger) :
    (FindAndDeleteOryFinalizers h1 env kc lg).err =
      (FindAndDeleteOryFinalizers h2 env kc lg).err ∧
    (FindAndDeleteOryFinalizers h1 env kc lg).trace =
      (FindAndDeleteOryFinalizers h2 env kc lg).trace := by
  cases hp : env.parse kc with
  | error e =>
    rw [run_parse_fail h1 env kc lg e hp, run_parse_fail h2 env kc lg e hp]
    exact ⟨rfl, rfl⟩
  | ok cfg =>
    cases ha : env.apixNewErr with
    | some e =>
      rw [run_apix_fail h1 env kc lg cfg e hp ha,
        run_apix_fail h2 env kc lg cfg e hp ha]
      exact ⟨rfl, rfl⟩
    | none =>
      cases hd : env.dynNewErr with
      | some e =>
        rw [run_dyn_fail h1 env kc lg cfg e hp ha hd,
          run_dyn_fail h2 env kc lg cfg e hp ha hd]
        exact ⟨rfl, rfl⟩
      | none =>
        rcases hg : env.getCRDResp with ⟨crd?, ge⟩
        by_cases hs : stopsErr ge = true
        · obtain ⟨e, rfl⟩ : ∃ e, ge = some e := by
            cases ge with
            | none => exact absurd hs (by simp [stopsErr])
            | some e => exact ⟨e, rfl⟩
          have he : isNotFound e = false := by simpa [stopsErr] using hs
          rw [run_get_stop h1 env kc lg cfg crd? e hp ha hd hg he,
            run_get_stop h2 env kc lg cfg crd? e hp ha hd hg he]
          exact ⟨rfl, rfl⟩
        · have hs2 : stopsErr ge = false := by simpa using hs
          cases crd? with
          | none =>
            rw [run_crd_nil h1 env kc lg cfg ge hp ha hd hg hs2,
              run_crd_nil h2 env kc lg cfg ge hp ha hd hg hs2]
            exact ⟨rfl, rfl⟩
          | some crd =>
            rw [run_ok h1 env kc lg cfg crd ge hp ha hd hg hs2,
              run_ok h2 env kc lg cfg crd ge hp ha hd hg hs2]
            exact ⟨rfl, rfl⟩

/-- C4, counterexample: the CRD get can report a not-found error while (as
the typed client in fact always does) still returning a CRD object; the run
then proceeds to issue a list request, so it is not the case that a
not-found error from the CRD get alone prevents listing. -/
theorem c4_counterexample :
    isNotFound GoErr.notFound = true ∧
    (envCRDNotFoundObj.getCRDResp).2 = some GoErr.notFound ∧
    Request.list gvr1 NamespaceAll ∈
      (FindAndDeleteOryFinalizers h0 envCRDNotFoundObj "kubecfg" lg0).trace := by
  decide

/-- C4, amended: if the CRD get reports a not-found error and returns no CRD
object, `FindAndDeleteOryFinalizers` returns nil without listing or updating
any instance, the CRD get being the only request issued. -/
theorem c4_amended_notfound_nil_crd (h : Handler) (env : Env) (kc : String)
    (lg : Logger) (cfg : Config) (e : GoErr)
    (hp : env.parse kc = Except.ok cfg) (ha : env.apixNewErr = none)
    (hd : env.dynNewErr = none) (hg : env.getCRDResp = (none, some e))
    (hnf : isNotFound e = true) :
    (FindAndDeleteOryFinalizers h env kc lg).err = none ∧
    (FindAndDeleteOryFinalizers h env kc lg).trace = [Request.getCRD oryCRDName] := by
  have hge : stopsErr (some e) = false := by simp [stopsErr, hnf]
  rw [run_crd_nil h env kc lg cfg (some e) hp ha hd hg hge]
  exact ⟨rfl, rfl⟩

theorem c4_witness :
    (FindAndDeleteOryFinalizers h0 envCRDGone "kubecfg" lg0).err = none ∧
    (FindAndDeleteOryFinalizers h0 envCRDGone "kubecfg" lg0).trace =
      [Request.getCRD oryCRDName] :=
  c4_amended_notfound_nil_crd h0 envCRDGone "kubecfg" lg0 cfg0 GoErr.notFound
    rfl rfl rfl rfl rfl

/-- C6, counterexample: the fresh instance get can report a not-found error
while still returning an object with finalizers; the per-instance step then
proceeds (and here returns an update error instead of nil), so a not-found
error from the fresh get alone does not make the step return nil. -/
theorem c6_counterexample :
    isNotFound GoErr.notFound = true ∧
    (envInstNotFoundObj.instGet 0 0).2 = some GoErr.notFound ∧
    (removeCustomResourceFinalizers envInstNotFoundObj gvr1 0 0 inst1).1 =
      some (GoErr.other "boom") := by
  decide

/-- C6, amended: if the fresh get of an instance reports a not-found error
and returns no object (the instance no longer exists), the per-instance step
returns nil having issued only the get, its retry wrapper returns nil, and
the loop continues with the remaining instances. -/
theorem c6_amended_notfound_skips (env : Env) (crdef : GroupVersionResource)
    (start : Nat) (inst : Unstructured) (rest : List Unstructured) (e : GoErr)
    (hg : env.instGet start 0 = (none, some e)) (hnf : isNotFound e = true) :
    removeCustomResourceFinalizers env crdef start 0 inst =
      (none, [Request.get crdef inst.ns inst.name]) ∧
    retryOnConflict env crdef start inst =
      (none, [Request.get crdef inst.ns inst.name]) ∧
    forEachInstance env crdef (inst :: rest) start =
      ((forEachInstance env crdef rest (start + 1)).1,
        Request.get crdef inst.ns inst.name ::
          (forEachInstance env crdef rest (start + 1)).2) := by
  have hs : stopsErr (some e) = false := by simp [stopsErr, hnf]
  have hatt := attempt_eq_gone env crdef start 0 inst (some e) hg hs
  have hret : retryOnConflict env crdef start inst =
      (none, [Request.get crdef inst.ns inst.name]) := by
    show retryGo env crdef start inst (4 + 1) 0 none [] = _
    rw [retryGo_succ_ok env crdef start inst 4 0 none [] _ hatt]
    simp
  refine ⟨hatt, hret, ?_⟩
  rw [forEach_cons_ok env crdef inst rest start _ hret]
  simp

/-- C1: if the run returns nil and the CRD get and the instance list both
succeeded with non-nil results, then for every listed instance whose freshly
re-fetched version has a non-empty finalizer list, an update request was
issued carrying that object with its finalizers cleared. -/
theorem c1_update_issued_for_finalized_instances (h : Handler) (env : Env)
    (kc : String) (lg : Logger) (crd : CRD) (items : List Unstructured)
    (hget : env.getCRDResp = (some crd, none))
    (hlist : env.listResp = (some items, none))
    (hrun : (FindAndDeleteOryFinalizers h env kc lg).err = none)
    (i : Nat) (hi : i < items.length) (res : Unstructured)
    (hres : env.instGet i 0 = (some res, none))
    (hfin : res.finalizers ≠ []) :
    Request.update (crdefOf crd) res.ns (clearFinalizers res) ∈
      (FindAndDeleteOryFinalizers h env kc lg).trace := by
  cases hp : env.parse kc with
  | error e =>
    rw [run_parse_fail h env kc lg e hp] at hrun
    simp at hrun
  | ok cfg =>
    cases ha : env.apixNewErr with
    | some e =>
      rw [run_apix_fail h env kc lg cfg e hp ha] at hrun
      simp at hrun
    | none =>
      cases hd : env.dynNewErr with
      | some e =>
        rw [run_dyn_fail h env kc lg cfg e hp ha hd] at hrun
        simp at hrun
      | none =>
        have hrunEq := run_ok h env kc lg cfg crd none hp ha hd hget rfl
        have hremEq := remove_list_ok env (crdefOf crd) items none hlist rfl
        rw [hrunEq, hremEq] at hrun
        simp only at hrun
        rcases forEach_success env (crdefOf crd) items 0 hrun i hi with ⟨_, hsub⟩
        have hmem0 : Request.update (crdefOf crd) res.ns (clearFinalizers res) ∈
            (removeCustomResourceFinalizers env (crdefOf crd) (0 + i) 0
              (items.getD i dInst)).2 := by
          rw [Nat.zero_add]
          exact attempt_update_mem env (crdefOf crd) i 0 (items.getD i dInst) res hres hfin
        have hmem1 := attempt0_sub_retry env (crdefOf crd) (0 + i)
          (items.getD i dInst) _ hmem0
        have hmem2 := hsub _ hmem1
        rw [hrunEq, hremEq]
        simp only [List.mem_cons]
        exact Or.inr (Or.inr hmem2)

theorem c1_witness :
    Request.update (crdefOf crd1) inst1.ns (clearFinalizers inst1) ∈
      (FindAndDeleteOryFinalizers h0 envOK "kubecfg" lg0).trace :=
  c1_update_issued_for_finalized_instances h0 envOK "kubecfg" lg0 crd1
    [inst1, inst2] rfl rfl (by decide) 0 (by decide) inst1 rfl (by decide)

/-- C5: if every fresh get for the `i`-th listed instance (within the retry
budget) returns either no object or an object with an empty finalizer list,
then the processing of that instance issues no update request: it is left
unchanged. -/
theorem c5_no_update_without_finalizers (env : Env) (crdef : GroupVersionResource)
    (i : Nat) (inst : Unstructured)
    (H : ∀ k, k < defaultRetrySteps → finalizersEmptyResp (env.instGet i k) = true) :
    (retryOnConflict env crdef i inst).2.all (fun r => ! isUpdateReq r) = true := by
  rw [List.all_eq_true]
  intro r hr
  rcases retry_mem env crdef i inst r hr with ⟨k2, hk2, hmem⟩
  rcases attempt_mem env crdef i k2 inst r hmem with h1 | ⟨res, e2, hik, hfne, h2⟩
  · subst h1; rfl
  · exfalso
    have hH := H k2 hk2
    rw [hik] at hH
    simp [finalizersEmptyResp] at hH
    exact hfne hH

theorem c5_witness :
    (retryOnConflict envNoFins gvr1 0 inst2).2.all (fun r => ! isUpdateReq r) = true :=
  c5_no_update_without_finalizers envNoFins gvr1 0 inst2 (by decide)

/-- C7: when the CRD get and the list succeed with non-nil results and every
fresh get answers with the instance that was asked for, the run's trace is
the CRD get, then exactly one list request addressed to all namespaces under
the fetched CRD-spec group, version and plural resource, then the
per-instance requests; every per-instance request in the trace arises from
the processing of some listed instance, and every request issued while
processing an instance is a get or update under the CRD-spec coordinates
addressed to that same instance's own namespace and name. -/
theorem c7_addressing (h : Handler) (env : Env) (kc : String) (lg : Logger)
    (cfg : Config) (crd : CRD) (items : List Unstructured)
    (hp : env.parse kc = Except.ok cfg) (ha : env.apixNewErr = none)
    (hd : env.dynNewErr = none)
    (hget : env.getCRDResp = (some crd, none))
    (hlist : env.listResp = (some items, none))
    (hcons : ∀ i, i < items.length → ∀ k, k < defaultRetrySteps →
      getConsistentWith (env.instGet i k) (items.getD i dInst) = true) :
    (FindAndDeleteOryFinalizers h env kc lg).trace =
      Request.getCRD oryCRDName :: Request.list (crdefOf crd) NamespaceAll ::
        (forEachInstance env (crdefOf crd) items 0).2 ∧
    (FindAndDeleteOryFinalizers h env kc lg).trace.countP
      (fun r => isListReq r) = 1 ∧
    ((forEachInstance env (crdefOf crd) items 0).2.all fun r =>
      (List.range items.length).any fun j =>
        decide (r ∈ (retryOnConflict env (crdefOf crd) j (items.getD j dInst)).2)) =
      true ∧
    ((List.range items.length).all fun j =>
      (retryOnConflict env (crdefOf crd) j (items.getD j dInst)).2.all
        (perInstanceAddressed (crdefOf crd) (items.getD j dInst))) = true := by
  have hrunEq := run_ok h env kc lg cfg crd none hp ha hd hget rfl
  have hremEq := remove_list_ok env (crdefOf crd) items none hlist rfl
  have htrace : (FindAndDeleteOryFinalizers h env kc lg).trace =
      Request.getCRD oryCRDName :: Request.list (crdefOf crd) NamespaceAll ::
        (forEachInstance env (crdefOf crd) items 0).2 := by
    rw [hrunEq, hremEq]
  have hnolist : ∀ r ∈ (forEachInstance env (crdefOf crd) items 0).2,
      isListReq r = false := by
    intro r hr
    rcases forEach_mem env (crdefOf crd) items 0 r hr with ⟨j, hj, k2, hk2, hmem⟩
    rcases attempt_mem env (crdefOf crd) (0 + j) k2 (items.getD j dInst) r hmem with
      h1 | ⟨res, e2, hik, hfne, h2⟩
    · subst h1; rfl
    · subst h2; rfl
  refine ⟨htrace, ?_, ?_, ?_⟩
  · rw [htrace,
      List.countP_cons_of_neg _ _ (by simp [isListReq]),
      List.countP_cons_of_pos _ _ (by simp [isListReq]),
      List.countP_eq_zero.mpr (fun r hr => by simp [hnolist r hr])]
  · rw [List.all_eq_true]
    intro r hr
    rcases forEach_mem_retry env (crdefOf crd) items 0 r hr with ⟨j, hj, hmem⟩
    rw [List.any_eq_true]
    refine ⟨j, List.mem_range.mpr hj, ?_⟩
    rw [Nat.zero_add] at hmem
    exact decide_eq_true hmem
  · rw [List.all_eq_true]
    intro j hjr
    rw [List.all_eq_true]
    intro r hr
    have hj : j < items.length := List.mem_range.mp hjr
    rcases retry_mem env (crdefOf crd) j (items.getD j dInst) r hr with ⟨k2, hk2, hmem⟩
    rcases attempt_mem env (crdefOf crd) j k2 (items.getD j dInst) r hmem with
      h1 | ⟨res, e2, hik, hfne, h2⟩
    · subst h1
      simp [perInstanceAddressed]
    · subst h2
      have hc := hcons j hj k2 hk2
      rw [hik] at hc
      simp only [getConsistentWith, Bool.and_eq_true, decide_eq_true_eq] at hc
      simp [perInstanceAddressed, clearFinalizers, hc.1, hc.2]

theorem c7_witness :
    (FindAndDeleteOryFinalizers h0 envOK "kubecfg" lg0).trace =
      Request.getCRD oryCRDName :: Request.list (crdefOf crd1) NamespaceAll ::
        (forEachInstance envOK (crdefOf crd1) [inst1, inst2] 0).2 ∧
    (FindAndDeleteOryFinalizers h0 envOK "kubecfg" lg0).trace.countP
      (fun r => isListReq r) = 1 ∧
    ((forEachInstance envOK (crdefOf crd1) [inst1, inst2] 0).2.all fun r =>
      (List.range [inst1, inst2].length).any fun j =>
        decide (r ∈ (retryOnConflict envOK (crdefOf crd1) j
          ([inst1, inst2].getD j dInst)).2)) = true ∧
    ((List.range [inst1, inst2].length).all fun j =>
      (retryOnConflict envOK (crdefOf crd1) j ([inst1, inst2].getD j dInst)).2.all
        (perInstanceAddressed (crdefOf crd1) ([inst1, inst2].getD j dInst))) = true :=
  c7_addressing h0 envOK "kubecfg" lg0 cfg0 crd1 [inst1, inst2]
    rfl rfl rfl rfl rfl (by decide)

theorem c6_witness :
    removeCustomResourceFinalizers envInstGone gvr1 0 0 inst1 =
      (none, [Request.get gvr1 "default" "client-a"]) ∧
    retryOnConflict envInstGone gvr1 0 inst1 =
      (none, [Request.get gvr1 "default" "client-a"]) ∧
    forEachInstance envInstGone gvr1 (inst1 :: [inst2]) 0 =
      ((forEachInstance envInstGone gvr1 [inst2] 1).1,
        Request.get gvr1 "default" "client-a" ::
          (forEachInstance envInstGone gvr1 [inst2] 1).2) :=
  c6_amended_notfound_skips envInstGone gvr1 0 inst1 [inst2] GoErr.notFound rfl rfl

/-- C2: the per-instance get-modify-update is retried only on version
conflicts and within the bounded default budget: (1) an attempt failing with
a non-conflict error ends the retry loop at once with that error, adding no
further attempt's requests; (2) when every attempt conflicts, exactly the
five budgeted attempts run and the last conflict is returned; (3) a failed
retry makes the instance loop return the error wrapped with the instance's
name and stop, issuing no request for the remaining instances. -/
theorem c2_retry_semantics (env : Env) (crdef : GroupVersionResource) :
    (∀ (i : Nat) (inst : Unstructured) (steps k : Nat) (le : Option GoErr)
        (acc reqs : List Request) (e : GoErr),
      removeCustomResourceFinalizers env crdef i k inst = (some e, reqs) →
      isConflict e = false →
      retryGo env crdef i inst (steps + 1) k le acc = (some e, acc ++ reqs)) ∧
    (∀ (i : Nat) (inst : Unstructured),
      (∀ k, k < defaultRetrySteps → attemptConflicts env crdef i inst k = true) →
      (retryOnConflict env crdef i inst).1 =
        (removeCustomResourceFinalizers env crdef i 4 inst).1 ∧
      (retryOnConflict env crdef i inst).2 =
        (removeCustomResourceFinalizers env crdef i 0 inst).2 ++
        (removeCustomResourceFinalizers env crdef i 1 inst).2 ++
        (removeCustomResourceFinalizers env crdef i 2 inst).2 ++
        (removeCustomResourceFinalizers env crdef i 3 inst).2 ++
        (removeCustomResourceFinalizers env crdef i 4 inst).2) ∧
    (∀ (start : Nat) (inst : Unstructured) (rest : List Unstructured)
        (e : GoErr) (reqs : List Request),
      retryOnConflict env crdef start inst = (some e, reqs) →
      forEachInstance env crdef (inst :: rest) start =
        (some (GoErr.wrapped (wrapMsg crdef inst) e), reqs)) := by
  refine ⟨?_, ?_, ?_⟩
  · intro i inst steps k le acc reqs e ha hc
    exact retryGo_succ_stop env crdef i inst steps k le acc reqs e ha hc
  · intro i inst H
    obtain ⟨e0, r0, ha0, hc0⟩ := attemptConflicts_spec env crdef i inst 0 (H 0 (by decide))
    obtain ⟨e1, r1, ha1, hc1⟩ := attemptConflicts_spec env crdef i inst 1 (H 1 (by decide))
    obtain ⟨e2, r2, ha2, hc2⟩ := attemptConflicts_spec env crdef i inst 2 (H 2 (by decide))
    obtain ⟨e3, r3, ha3, hc3⟩ := attemptConflicts_spec env crdef i inst 3 (H 3 (by decide))
    obtain ⟨e4, r4, ha4, hc4⟩ := attemptConflicts_spec env crdef i inst 4 (H 4 (by decide))
    have hstart : retryOnConflict env crdef i inst =
        retryGo env crdef i inst (4 + 1) 0 none [] := rfl
    have hrun : retryOnConflict env crdef i inst =
        (some e4, (((([] ++ r0) ++ r1) ++ r2) ++ r3) ++ r4) := by
      rw [hstart,
        retryGo_succ_conflict env crdef i inst 4 0 none [] r0 e0 ha0 hc0,
        retryGo_succ_conflict env crdef i inst 3 1 (some e0) ([] ++ r0) r1 e1 ha1 hc1,
        retryGo_succ_conflict env crdef i inst 2 2 (some e1)
          (([] ++ r0) ++ r1) r2 e2 ha2 hc2,
        retryGo_succ_conflict env crdef i inst 1 3 (some e2)
          ((([] ++ r0) ++ r1) ++ r2) r3 e3 ha3 hc3,
        retryGo_succ_conflict env crdef i inst 0 4 (some e3)
          (((([] ++ r0) ++ r1) ++ r2) ++ r3) r4 e4 ha4 hc4]
      exact retryGo_zero env crdef i inst 5 (some e4) _
    constructor
    · rw [hrun, ha4]
    · rw [hrun, ha0, ha1, ha2, ha3, ha4]
      simp [List.append_assoc]
  · intro start inst rest e reqs hr
    exact forEach_cons_fail env crdef inst rest start e reqs hr

/-- C3: the run performs its steps in a fixed order: parse the kubeconfig,
construct the clients, get the CRD named oauth2clients.hydra.ory.sh, list
its instances, then process each listed instance in list order; a failure of
an earlier step (for the get and the list: with an error other than
not-found) returns that error and performs none of the later steps, and when
every instance's retry succeeds the loop's trace is the concatenation of the
per-instance traces in list order. -/
theorem c3_sequencing (h : Handler) (env : Env) (kc : String) (lg : Logger) :
    (∀ e, env.parse kc = Except.error e →
      (FindAndDeleteOryFinalizers h env kc lg).err = some e ∧
      (FindAndDeleteOryFinalizers h env kc lg).trace = []) ∧
    (∀ cfg e, env.parse kc = Except.ok cfg → env.apixNewErr = some e →
      (FindAndDeleteOryFinalizers h env kc lg).err = some e ∧
      (FindAndDeleteOryFinalizers h env kc lg).trace = []) ∧
    (∀ cfg e, env.parse kc = Except.ok cfg → env.apixNewErr = none →
      env.dynNewErr = some e →
      (FindAndDeleteOryFinalizers h env kc lg).err = some e ∧
      (FindAndDeleteOryFinalizers h env kc lg).trace = []) ∧
    (∀ cfg crd? e, env.parse kc = Except.ok cfg → env.apixNewErr = none →
      env.dynNewErr = none → env.getCRDResp = (crd?, some e) →
      isNotFound e = false →
      (FindAndDeleteOryFinalizers h env kc lg).err = some e ∧
      (FindAndDeleteOryFinalizers h env kc lg).trace = [Request.getCRD oryCRDName]) ∧
    (∀ cfg crd ge items? e, env.parse kc = Except.ok cfg → env.apixNewErr = none →
      env.dynNewErr = none → env.getCRDResp = (some crd, ge) → stopsErr ge = false →
      env.listResp = (items?, some e) → isNotFound e = false →
      (FindAndDeleteOryFinalizers h env kc lg).err = some e ∧
      (FindAndDeleteOryFinalizers h env kc lg).trace =
        [Request.getCRD oryCRDName, Request.list (crdefOf crd) NamespaceAll]) ∧
    (∀ cfg crd ge items le, env.parse kc = Except.ok cfg → env.apixNewErr = none →
      env.dynNewErr = none → env.getCRDResp = (some crd, ge) → stopsErr ge = false →
      env.listResp = (some items, le) → stopsErr le = false →
      (FindAndDeleteOryFinalizers h env kc lg).err =
        (forEachInstance env (crdefOf crd) items 0).1 ∧
      (FindAndDeleteOryFinalizers h env kc lg).trace =
        Request.getCRD oryCRDName :: Request.list (crdefOf crd) NamespaceAll ::
          (forEachInstance env (crdefOf crd) items 0).2) ∧
    (∀ (crdef : GroupVersionResource) (items : List Unstructured) (start : Nat),
      (∀ j, j < items.length →
        (retryOnConflict env crdef (start + j) (items.getD j dInst)).1 = none) →
      forEachInstance env crdef items start =
        (none, ((List.range items.length).map fun j =>
          (retryOnConflict env crdef (start + j) (items.getD j dInst)).2).flatten)) := by
  refine ⟨?_, ?_, ?_, ?_, ?_, ?_, ?_⟩
  · intro e hp
    rw [run_parse_fail h env kc lg e hp]
    exact ⟨rfl, rfl⟩
  · intro cfg e hp ha
    rw [run_apix_fail h env kc lg cfg e hp ha]
    exact ⟨rfl, rfl⟩
  · intro cfg e hp ha hd
    rw [run_dyn_fail h env kc lg cfg e hp ha hd]
    exact ⟨rfl, rfl⟩
  · intro cfg crd? e hp ha hd hg he
    rw [run_get_stop h env kc lg cfg crd? e hp ha hd hg he]
    exact ⟨rfl, rfl⟩
  · intro cfg crd ge items? e hp ha hd hg hge hl he
    rw [run_ok h env kc lg cfg crd ge hp ha hd hg hge,
      remove_list_stop env (crdefOf crd) items? e hl he]
    exact ⟨rfl, rfl⟩
  · intro cfg crd ge items le hp ha hd hg hge hl hle
    rw [run_ok h env kc lg cfg crd ge hp ha hd hg hge,
      remove_list_ok env (crdefOf crd) items le hl hle]
    exact ⟨rfl, rfl⟩
  · intro crdef items
    induction items with
    | nil =>
      intro start _
      simp [forEach_nil]
    | cons inst rest ih =>
      intro start H
      rcases hr : retryOnConflict env crdef start inst with ⟨o, reqs⟩
      have ho : o = none := by
        have h0 : (retryOnConflict env crdef (start + 0)
            ((inst :: rest).getD 0 dInst)).1 = none := H 0 (by simp)
        have h0b : (retryOnConflict env crdef start inst).1 = none := h0
        rw [hr] at h0b
        exact h0b
      subst ho
      rw [forEach_cons_ok env crdef inst rest start reqs hr]
      have ihh := ih (start + 1) (fun j hj => by
        have hH := H (j + 1) (by simpa using Nat.succ_lt_succ hj)
        rw [show start + (j + 1) = start + 1 + j from by omega] at hH
        exact hH)
      rw [ihh]
      have hhead : (retryOnConflict env crdef (start + 0)
          ((inst :: rest).getD 0 dInst)).2 = reqs := by
        have : (retryOnConflict env crdef start inst).2 = reqs := by rw [hr]
        exact this
      have hmapeq : ((List.range rest.length).map fun j =>
          (retryOnConflict env crdef (start + 1 + j) (rest.getD j dInst)).2) =
          ((List.range rest.length).map fun j =>
          (retryOnConflict env crdef (start + (j + 1))
            ((inst :: rest).getD (j + 1) dInst)).2) := by
        apply List.map_congr_left
        intro j _
        rw [show start + 1 + j = start + (j + 1) from by omega]
        rfl
      have hsplit : ((List.range (inst :: rest).length).map fun j =>
          (retryOnConflict env crdef (start + j) ((inst :: rest).getD j dInst)).2).flatten =
          (retryOnConflict env crdef (start + 0) ((inst :: rest).getD 0 dInst)).2 ++
          ((List.range rest.length).map fun j =>
            (retryOnConflict env crdef (start + (j + 1))
              ((inst :: rest).getD (j + 1) dInst)).2).flatten := by
        rw [List.length_cons, List.range_succ_eq_map, List.map_cons, List.map_map,
          List.flatten_cons]
        rfl
      rw [hsplit, hhead, ← hmapeq]

theorem c3_witness :
    ((FindAndDeleteOryFinalizers h0 envParseBad "kubecfg" lg0).err =
        some (GoErr.other "bad kubeconfig") ∧
      (FindAndDeleteOryFinalizers h0 envParseBad "kubecfg" lg0).trace = []) ∧
    ((FindAndDeleteOryFinalizers h0 envApixBad "kubecfg" lg0).err =
        some (GoErr.other "apix") ∧
      (FindAndDeleteOryFinalizers h0 envApixBad "kubecfg" lg0).trace = []) ∧
    ((FindAndDeleteOryFinalizers h0 envDynBad "kubecfg" lg0).err =
        some (GoErr.other "dyn") ∧
      (FindAndDeleteOryFinalizers h0 envDynBad "kubecfg" lg0).trace = []) ∧
    ((FindAndDeleteOryFinalizers h0 envGetBad "kubecfg" lg0).err =
        some (GoErr.other "boom") ∧
      (FindAndDeleteOryFinalizers h0 envGetBad "kubecfg" lg0).trace =
        [Request.getCRD oryCRDName]) ∧
    ((FindAndDeleteOryFinalizers h0 envListBad "kubecfg" lg0).err =
        some (GoErr.other "list-broke") ∧
      (FindAndDeleteOryFinalizers h0 envListBad "kubecfg" lg0).trace =
        [Request.getCRD oryCRDName, Request.list (crdefOf crd1) NamespaceAll]) ∧
    ((FindAndDeleteOryFinalizers h0 envOK "kubecfg" lg0).err =
        (forEachInstance envOK (crdefOf crd1) [inst1, inst2] 0).1 ∧
      (FindAndDeleteOryFinalizers h0 envOK "kubecfg" lg0).trace =
        Request.getCRD oryCRDName :: Request.list (crdefOf crd1) NamespaceAll ::
          (forEachInstance envOK (crdefOf crd1) [inst1, inst2] 0).2) ∧
    (forEachInstance envOK gvr1 [inst1, inst2] 0 =
      (none, ((List.range (2 : Nat)).map fun j =>
        (retryOnConflict envOK gvr1 (0 + j) ([inst1, inst2].getD j dInst)).2).flatten)) :=
  ⟨(c3_sequencing h0 envParseBad "kubecfg" lg0).1 (GoErr.other "bad kubeconfig") rfl,
    (c3_sequencing h0 envApixBad "kubecfg" lg0).2.1 cfg0 (GoErr.other "apix") rfl rfl,
    (c3_sequencing h0 envDynBad "kubecfg" lg0).2.2.1 cfg0 (GoErr.other "dyn") rfl rfl rfl,
    (c3_sequencing h0 envGetBad "kubecfg" lg0).2.2.2.1 cfg0 none
      (GoErr.other "boom") rfl rfl rfl rfl rfl,
    (c3_sequencing h0 envListBad "kubecfg" lg0).2.2.2.2.1 cfg0 crd1 none none
      (GoErr.other "list-broke") rfl rfl rfl rfl rfl rfl rfl,
    (c3_sequencing h0 envOK "kubecfg" lg0).2.2.2.2.2.1 cfg0 crd1 none
      [inst1, inst2] none rfl rfl rfl rfl rfl rfl rfl,
    (c3_sequencing h0 envOK "kubecfg" lg0).2.2.2.2.2.2 gvr1 [inst1, inst2] 0
      (by decide)⟩

theorem c2_witness :
    (retryGo envNonConflict gvr1 0 inst1 (0 + 1) 0 none [] =
      (some (GoErr.other "x"), [] ++ [Request.get gvr1 "default" "client-a"])) ∧
    ((retryOnConflict envConflict gvr1 0 inst1).1 =
        (removeCustomResourceFinalizers envConflict gvr1 0 4 inst1).1 ∧
      (retryOnConflict envConflict gvr1 0 inst1).2 =
        (removeCustomResourceFinalizers envConflict gvr1 0 0 inst1).2 ++
        (removeCustomResourceFinalizers envConflict gvr1 0 1 inst1).2 ++
        (removeCustomResourceFinalizers envConflict gvr1 0 2 inst1).2 ++
        (removeCustomResourceFinalizers envConflict gvr1 0 3 inst1).2 ++
        (removeCustomResourceFinalizers envConflict gvr1 0 4 inst1).2) ∧
    (forEachInstance envNonConflict gvr1 (inst1 :: [inst2]) 0 =
      (some (GoErr.wrapped (wrapMsg gvr1 inst1) (GoErr.other "x")),
        [Request.get gvr1 "default" "client-a"])) :=
  ⟨(c2_retry_semantics envNonConflict gvr1).1 0 inst1 0 0 none []
      [Request.get gvr1 "default" "client-a"] (GoErr.other "x") rfl rfl,
    (c2_retry_semantics envConflict gvr1).2.1 0 inst1 (by decide),
    (c2_retry_semantics envNonConflict gvr1).2.2 0 inst1 [inst2] (GoErr.other "x")
      [Request.get gvr1 "default" "client-a"] rfl⟩

end OryK8s
